import Mathlib

/-!
Verification of the voice-vibe-room peer-session coordination layer.

The definitions below are a shallow embedding of the repository's
TypeScript source:
* the roster handlers of `src/components/VoiceChat.tsx`
  (`handleUserJoined`, `handleRoomParticipants`, `handleUserSpeakingStatus`,
  `cleanup`),
* the peer-session manager of `src/hooks/useWebRTC.ts`
  (`createOffer`, `handleSignal`, `addUser`, the effect cleanup),
* the signaling service of the Supabase `SocketService` variant
  (`sendSignal`, `sendMuteStatus`),
* room-id creation of `src/components/RoomManager.tsx` (`createRoom`,
  `joinRoom`).

Participant ids and names are modelled as `String`; for the room-id
claims, strings are modelled as lists of characters so that character
level facts can be stated.  Timers are modelled as explicit pending
entries `(id, fireTime)`; wall-clock time is an explicit `Nat`
parameter in milliseconds.  Connection objects are modelled by an
allocation counter plus a signaling-state table, which is exactly the
information the claims are about.
-/

namespace VoiceVibe

/-- Roster entry, from the `Participant` interface of `VoiceChat.tsx`:
`{ id, name, isSpeaking, isMuted, hasVideo }`. -/
structure Participant where
  id : String
  name : String
  isSpeaking : Bool
  isMuted : Bool
  hasVideo : Bool
deriving Repr, DecidableEq

/-- Payload of the `user-joined` broadcast: `{ userId, userName }`. -/
structure JoinData where
  userId : String
  userName : String
deriving Repr, DecidableEq

/-- One record of the presence snapshot delivered to
`handleRoomParticipants`: `{ userId, userName }`. -/
structure SnapshotEntry where
  userId : String
  userName : String
deriving Repr, DecidableEq

/-- `handleUserJoined` of `VoiceChat.tsx` (lines 78-97): if the joined
user is not the local user and no entry with that id exists, append a
new entry with default status fields; otherwise leave the roster
unchanged. -/
def handleUserJoined (localId : String) (prev : List Participant)
    (d : JoinData) : List Participant :=
  if d.userId ≠ localId then
    if prev.any (fun p => p.id == d.userId) then prev
    else prev ++ [⟨d.userId, d.userName, false, false, false⟩]
  else prev

/-- `handleRoomParticipants` of `VoiceChat.tsx` (lines 141-167): the
previous roster is discarded; the new roster is the freshly rebuilt
local entry followed by one default-status entry per snapshot record
whose id differs from the local id. -/
def handleRoomParticipants (localId localName : String)
    (isVideoEnabled : Bool) (snapshot : List SnapshotEntry) :
    List Participant :=
  ⟨localId, localName, false, false, isVideoEnabled⟩ ::
    (snapshot.filter (fun p => p.userId ≠ localId)).map
      (fun p => ⟨p.userId, p.userName, false, false, false⟩)

/-- Number of roster entries carrying a given id. -/
def countId (l : List Participant) (uid : String) : Nat :=
  (l.filter (fun p => p.id == uid)).length

/-- First roster entry with a given id, if any (the shape returned by
`participants.find(p => p.id === uid)` in the source). -/
def findById (l : List Participant) (uid : String) : Option Participant :=
  l.find? (fun p => p.id == uid)

theorem countId_append (l₁ l₂ : List Participant) (uid : String) :
    countId (l₁ ++ l₂) uid = countId l₁ uid + countId l₂ uid := by
  simp [countId, List.filter_append]

theorem any_of_countId_pos (l : List Participant) (uid : String)
    (h : 0 < countId l uid) : l.any (fun p => p.id == uid) = true := by
  induction l with
  | nil => simp [countId] at h
  | cons a t ih =>
    by_cases ha : a.id == uid
    · simp [List.any_cons, ha]
    · simp only [countId, List.filter_cons, ha] at h
      simp [List.any_cons, ha, ih h]

theorem countId_eq_zero_of_not_any (l : List Participant) (uid : String)
    (h : l.any (fun p => p.id == uid) = false) : countId l uid = 0 := by
  induction l with
  | nil => simp [countId]
  | cons a t ih =>
    simp only [List.any_cons, Bool.or_eq_false_iff] at h
    simp only [countId, List.filter_cons, h.1]
    exact ih h.2

theorem any_eq_false_of_countId_eq_zero (l : List Participant)
    (uid : String) (h : countId l uid = 0) :
    l.any (fun p => p.id == uid) = false := by
  induction l with
  | nil => simp
  | cons a t ih =>
    simp only [countId, List.filter_cons] at h
    cases hb : (a.id == uid) with
    | true => simp [hb] at h
    | false =>
      simp only [hb, Bool.false_eq_true, if_false] at h
      simp [List.any_cons, hb, ih h]

/-- C3: Self-never-evicted.  For every presence snapshot delivered to
`handleRoomParticipants`, including one that does not contain the local
user's id, the reconciled roster contains an entry whose id is the
local user's id. -/
theorem self_never_evicted (localId localName : String)
    (isVideoEnabled : Bool) (snapshot : List SnapshotEntry) :
    (handleRoomParticipants localId localName isVideoEnabled
      snapshot).any (fun p => p.id == localId) = true := by
  simp [handleRoomParticipants]

/-- C4: Idempotent join.  Delivering the same `joined` broadcast a
second time leaves the roster (hence every status field) exactly as the
first delivery left it, and a first delivery for a fresh remote id
produces exactly one entry for that id. -/
theorem idempotent_join (localId : String) (prev : List Participant)
    (d : JoinData) :
    handleUserJoined localId (handleUserJoined localId prev d) d
        = handleUserJoined localId prev d ∧
      (d.userId ≠ localId → countId prev d.userId = 0 →
        countId (handleUserJoined localId prev d) d.userId = 1) := by
  constructor
  · by_cases hid : d.userId ≠ localId
    · by_cases hany : prev.any (fun p => p.id == d.userId)
      · simp [handleUserJoined, hid, hany]
      · have hnew : (prev ++
            [(⟨d.userId, d.userName, false, false, false⟩ :
              Participant)]).any (fun p => p.id == d.userId) = true := by
          simp [List.any_append]
        simp [handleUserJoined, hid, hany, hnew]
    · simp [handleUserJoined, hid]
  · intro hid h0
    have hany := any_eq_false_of_countId_eq_zero prev d.userId h0
    rw [handleUserJoined, if_pos hid, hany]
    simp only [Bool.false_eq_true, if_false, countId_append, h0]
    simp [countId]

/-- Witness for C4 at a concrete roster and a concrete join payload. -/
theorem idempotent_join_witness :
    handleUserJoined "a" (handleUserJoined "a" [] ⟨"b", "Bob"⟩)
        ⟨"b", "Bob"⟩ = handleUserJoined "a" [] ⟨"b", "Bob"⟩ ∧
      countId (handleUserJoined "a" [] ⟨"b", "Bob"⟩) "b" = 1 :=
  ⟨(idempotent_join "a" [] ⟨"b", "Bob"⟩).1,
    (idempotent_join "a" [] ⟨"b", "Bob"⟩).2 (by decide) (by decide)⟩

/-- C5 counterexample: the roster held an entry for id `b` with
`isMuted = true`; the snapshot still lists `b`; after
`handleRoomParticipants` the entry for `b` has `isMuted = false`, so
reconciliation does change the status fields of an already-present
participant, contrary to the claim. -/
theorem snapshot_frame_counterexample :
    findById [⟨"a", "Alice", false, false, false⟩,
        ⟨"b", "Bob", false, true, false⟩] "b"
      = some ⟨"b", "Bob", false, true, false⟩ ∧
    findById (handleRoomParticipants "a" "Alice" false [⟨"b", "Bob"⟩])
        "b" = some ⟨"b", "Bob", false, false, false⟩ := by
  decide

/-- C5 amended: applying a presence snapshot rebuilds the roster from
scratch, independently of the previous roster: every entry other than
the freshly rebuilt local one comes from a snapshot record and carries
all-default status fields (`isMuted = false`, `isSpeaking = false`,
`hasVideo = false`), so pre-snapshot status fields are reset rather
than preserved. -/
theorem snapshot_rebuild (localId localName : String) (vid : Bool)
    (snapshot : List SnapshotEntry) (p : Participant)
    (hp : p ∈ handleRoomParticipants localId localName vid snapshot)
    (hne : p.id ≠ localId) :
    p.isMuted = false ∧ p.isSpeaking = false ∧ p.hasVideo = false ∧
      ∃ s ∈ snapshot, s.userId = p.id ∧ s.userName = p.name := by
  rcases List.mem_cons.mp hp with h | h
  · subst h; simp at hne
  · obtain ⟨s, hs, rfl⟩ := List.mem_map.mp h
    have hs' := List.mem_filter.mp hs
    exact ⟨rfl, rfl, rfl, s, hs'.1, rfl, rfl⟩

/-- Witness for C5's amended statement at a concrete snapshot. -/
theorem snapshot_rebuild_witness :
    (⟨"b", "Bob", false, false, false⟩ : Participant).isMuted = false ∧
      (⟨"b", "Bob", false, false, false⟩ : Participant).isSpeaking
        = false ∧
      (⟨"b", "Bob", false, false, false⟩ : Participant).hasVideo
        = false ∧
      ∃ s ∈ [(⟨"b", "Bob"⟩ : SnapshotEntry)],
        s.userId = (⟨"b", "Bob", false, false, false⟩ :
            Participant).id ∧
          s.userName = (⟨"b", "Bob", false, false, false⟩ :
            Participant).name :=
  snapshot_rebuild "a" "Alice" false [⟨"b", "Bob"⟩]
    ⟨"b", "Bob", false, false, false⟩ (by decide) (by decide)

/-- Payload of the `user-speaking-status` broadcast:
`{ userId, isSpeaking }`. -/
structure SpeakData where
  userId : String
  isSpeaking : Bool
deriving Repr, DecidableEq

/-- Roster plus the per-id pending speaking timeouts
(`speakingTimeoutsRef`); a pending entry `(id, t)` is a timeout for
`id` scheduled to fire at absolute time `t` (milliseconds). -/
structure SpeakState where
  participants : List Participant
  pending : List (String × Nat)
deriving Repr, DecidableEq

/-- `handleUserSpeakingStatus` of `VoiceChat.tsx` (lines 99-127),
receiving a sample at absolute time `now`: any pending timeout for the
id is cancelled; the sample is applied to the participant immediately
(in both directions); if the sample is `false`, a timeout firing 500 ms
later is scheduled. -/
def handleUserSpeakingStatus (now : Nat) (st : SpeakState)
    (d : SpeakData) : SpeakState :=
  { participants := st.participants.map (fun p =>
      if p.id == d.userId then { p with isSpeaking := d.isSpeaking }
      else p),
    pending := (st.pending.filter (fun e => !(e.1 == d.userId))) ++
      (if d.isSpeaking then [] else [(d.userId, now + 500)]) }

/-- The body of the timeout scheduled by `handleUserSpeakingStatus`:
set the participant's `isSpeaking` to false and remove the pending
entry. -/
def fireSpeakingTimeout (st : SpeakState) (uid : String) : SpeakState :=
  { participants := st.participants.map (fun p =>
      if p.id == uid then { p with isSpeaking := false } else p),
    pending := st.pending.filter (fun e => !(e.1 == uid)) }

/-- The debounced speaking output for an id, read off a roster: the
`isSpeaking` field of the first entry with that id. -/
def getSpeakingList (l : List Participant) (uid : String) :
    Option Bool :=
  match l with
  | [] => none
  | p :: rest =>
    if p.id == uid then some p.isSpeaking else getSpeakingList rest uid

/-- The debounced speaking output for an id. -/
def getSpeaking (st : SpeakState) (uid : String) : Option Bool :=
  getSpeakingList st.participants uid

/-- Fire times of the pending timeouts for an id. -/
def pendingFor (st : SpeakState) (uid : String) : List Nat :=
  (st.pending.filter (fun e => e.1 == uid)).map (fun e => e.2)

theorem getSpeakingList_update (l : List Participant) (uid : String)
    (b : Bool) (h : l.any (fun p => p.id == uid) = true) :
    getSpeakingList (l.map (fun p =>
      if p.id == uid then { p with isSpeaking := b } else p)) uid
      = some b := by
  induction l with
  | nil => simp at h
  | cons a t ih =>
    obtain ⟨aid, aname, asp, amut, avid⟩ := a
    rw [List.map_cons]
    by_cases ha : (aid == uid) = true
    · simp [getSpeakingList, ha]
    · have ha' : (aid == uid) = false := by simpa using ha
      simp only [List.any_cons, ha', Bool.false_or] at h
      simp only [ha', Bool.false_eq_true, if_false, getSpeakingList]
      exact ih h

theorem filter_ne_then_eq_nil (l : List (String × Nat)) (uid : String) :
    (l.filter (fun e => !(e.1 == uid))).filter (fun e => e.1 == uid)
      = [] := by
  induction l with
  | nil => rfl
  | cons a t ih =>
    by_cases ha : (a.1 == uid) = true
    · simp [List.filter_cons, ha, ih]
    · simp [List.filter_cons, ha, ih]

/-- C2 counterexample: with the 500 ms hold time, the remote speaking
samples `true` at t=0 and `false` at t=100 lie within one hold window,
yet after the second sample the debounced output for the id is already
`false` (applied immediately, not after the hold), so the claimed
sequence `true, false, true` does pass through a false output; the
third sample merely flips it back to true. -/
theorem debounce_hold_counterexample :
    getSpeaking (handleUserSpeakingStatus 100
        (handleUserSpeakingStatus 0
          ⟨[⟨"b", "Bob", false, false, false⟩], []⟩ ⟨"b", true⟩)
        ⟨"b", false⟩) "b" = some false ∧
      (100 : Nat) < 0 + 500 ∧
      getSpeaking (handleUserSpeakingStatus 200
        (handleUserSpeakingStatus 100
          (handleUserSpeakingStatus 0
            ⟨[⟨"b", "Bob", false, false, false⟩], []⟩ ⟨"b", true⟩)
          ⟨"b", false⟩) ⟨"b", true⟩) "b" = some true := by
  decide

/-- C2 amended: a speaking sample is applied to the participant's
`isSpeaking` immediately in both directions; every sample first
cancels any pending timeout for the id; a false sample additionally
schedules a single timeout at `now + 500`, and that timeout, when it
fires, re-asserts `isSpeaking = false` and removes itself. -/
theorem speaking_sample_immediate (now : Nat) (st : SpeakState)
    (d : SpeakData)
    (h : st.participants.any (fun p => p.id == d.userId) = true) :
    getSpeaking (handleUserSpeakingStatus now st d) d.userId
        = some d.isSpeaking ∧
      pendingFor (handleUserSpeakingStatus now st d) d.userId
        = (if d.isSpeaking then [] else [now + 500]) ∧
      getSpeaking (fireSpeakingTimeout st d.userId) d.userId
        = some false ∧
      pendingFor (fireSpeakingTimeout st d.userId) d.userId = [] := by
  refine ⟨?_, ?_, ?_, ?_⟩
  · exact getSpeakingList_update st.participants d.userId d.isSpeaking h
  · cases hs : d.isSpeaking <;>
      simp [handleUserSpeakingStatus, pendingFor, List.filter_append,
        filter_ne_then_eq_nil, hs]
  · exact getSpeakingList_update st.participants d.userId false h
  · simp [fireSpeakingTimeout, pendingFor, filter_ne_then_eq_nil]

/-- Witness for C2's amended statement at a concrete state with a
stale pending timeout. -/
theorem speaking_sample_immediate_witness :
    getSpeaking (handleUserSpeakingStatus 100
        ⟨[⟨"b", "Bob", true, false, false⟩], [("b", 300)]⟩
        ⟨"b", false⟩) "b" = some false ∧
      pendingFor (handleUserSpeakingStatus 100
        ⟨[⟨"b", "Bob", true, false, false⟩], [("b", 300)]⟩
        ⟨"b", false⟩) "b" = [600] ∧
      getSpeaking (fireSpeakingTimeout
        ⟨[⟨"b", "Bob", true, false, false⟩], [("b", 300)]⟩ "b") "b"
        = some false ∧
      pendingFor (fireSpeakingTimeout
        ⟨[⟨"b", "Bob", true, false, false⟩], [("b", 300)]⟩ "b") "b"
        = [] := by
  simpa using speaking_sample_immediate 100
    ⟨[⟨"b", "Bob", true, false, false⟩], [("b", 300)]⟩ ⟨"b", false⟩
    (by decide)

/-- Role of a peer link, decided by the code path that created it:
`createOffer` creates initiator links, the offer branch of
`handleSignal` creates answerer links. -/
inductive Role where
  | initiator
  | answerer
deriving Repr, DecidableEq

/-- Signaling state of one `RTCPeerConnection`, as far as the
offer/answer exchange of `useWebRTC.ts` drives it. -/
inductive ConnState where
  | stable
  | haveLocalOffer
  | haveRemoteOffer
  | closedConn
deriving Repr, DecidableEq

/-- Kinds of signaling envelope sent through `sendSignal`
(`offer`, `answer`, `ice-candidate`). -/
inductive SignalKind where
  | offer
  | answer
  | iceCandidate
deriving Repr, DecidableEq

/-- One entry of `peersRef`: the connection object (identified by its
allocation number) together with the role its creation path gave it. -/
structure PeerLink where
  connId : Nat
  role : Role
deriving Repr, DecidableEq

/-- State of the `useWebRTC` hook: own id, the `peersRef` map (in
insertion order, as a JS `Map`), the signaling state of every
connection ever allocated, the allocation counter, and the envelopes
handed to `socketService.sendSignal` so far. -/
structure RTCState where
  selfId : String
  peers : List (String × PeerLink)
  conns : List (Nat × ConnState)
  nextConn : Nat
  outbox : List (String × SignalKind)
deriving Repr, DecidableEq

/-- Fresh hook state. -/
def initRTC (selfId : String) : RTCState :=
  ⟨selfId, [], [], 0, []⟩

/-- `peersRef.current.get(uid)`. -/
def lookupEntry (l : List (String × PeerLink)) (uid : String) :
    Option PeerLink :=
  match l with
  | [] => none
  | e :: rest => if e.1 == uid then some e.2 else lookupEntry rest uid

/-- `peersRef.current.set(uid, v)`: replace in place if the key exists,
append otherwise (JS `Map` semantics). -/
def setEntry (l : List (String × PeerLink)) (uid : String)
    (v : PeerLink) : List (String × PeerLink) :=
  match l with
  | [] => [(uid, v)]
  | e :: rest =>
    if e.1 == uid then (uid, v) :: rest else e :: setEntry rest uid v

/-- Number of map entries for a key (the map shape invariant is that
this is at most 1). -/
def countKey (l : List (String × PeerLink)) (uid : String) : Nat :=
  (l.filter (fun e => e.1 == uid)).length

/-- Signaling state of a connection by its allocation number. -/
def connStateOf (l : List (Nat × ConnState)) (c : Nat) :
    Option ConnState :=
  match l with
  | [] => none
  | e :: rest => if e.1 == c then some e.2 else connStateOf rest c

/-- Overwrite the signaling state of a connection. -/
def setConn (l : List (Nat × ConnState)) (c : Nat) (v : ConnState) :
    List (Nat × ConnState) :=
  match l with
  | [] => []
  | e :: rest =>
    if e.1 == c then (c, v) :: rest else e :: setConn rest c v

/-- `createOffer` of `useWebRTC.ts` (lines 132-147): allocate a fresh
connection, store it in `peersRef` under the remote id (role
initiator), set the local offer, and send an `offer` envelope to the
remote id. -/
def createOffer (st : RTCState) (remoteId : String) : RTCState :=
  { st with
    peers := setEntry st.peers remoteId ⟨st.nextConn, Role.initiator⟩,
    conns := st.conns ++ [(st.nextConn, ConnState.haveLocalOffer)],
    nextConn := st.nextConn + 1,
    outbox := st.outbox ++ [(remoteId, SignalKind.offer)] }

/-- `handleSignal` of `useWebRTC.ts` (lines 149-182).  The body is
wrapped in try/catch, so a WebRTC call that throws (such as
`setRemoteDescription(offer)` on a connection that already holds a
local offer — the glare case) is swallowed: the map is untouched and
no answer is sent.  An `offer` from an unknown id creates an answerer
link and sends back an answer; `answer`/`ice-candidate` envelopes for
an unknown id are ignored inside the `if (peer)` guard. -/
def handleSignal (st : RTCState) (kind : SignalKind)
    (fromId : String) : RTCState :=
  match kind with
  | SignalKind.offer =>
    match lookupEntry st.peers fromId with
    | none =>
      { st with
        peers := setEntry st.peers fromId
          ⟨st.nextConn, Role.answerer⟩,
        conns := st.conns ++ [(st.nextConn, ConnState.stable)],
        nextConn := st.nextConn + 1,
        outbox := st.outbox ++ [(fromId, SignalKind.answer)] }
    | some p =>
      match connStateOf st.conns p.connId with
      | some ConnState.stable =>
        { st with outbox := st.outbox ++ [(fromId, SignalKind.answer)] }
      | _ => st
  | SignalKind.answer =>
    match lookupEntry st.peers fromId with
    | none => st
    | some p =>
      match connStateOf st.conns p.connId with
      | some ConnState.haveLocalOffer =>
        { st with conns := setConn st.conns p.connId ConnState.stable }
      | _ => st
  | SignalKind.iceCandidate =>
    match lookupEntry st.peers fromId with
    | none => st
    | some _ => st

/-- `addUser` of `useWebRTC.ts` (lines 184-188): any `user-joined`
event for an id other than the local one triggers `createOffer`,
without checking whether a peer already exists. -/
def addUser (st : RTCState) (d : JoinData) : RTCState :=
  if d.userId ≠ st.selfId then createOffer st d.userId else st

/-- The `useWebRTC` effect cleanup (lines 222-232): close every
connection still referenced by `peersRef` and clear the map. -/
def webrtcCleanup (st : RTCState) : RTCState :=
  { st with
    conns := st.conns.map (fun c =>
      if st.peers.any (fun e => e.2.connId == c.1) then
        (c.1, ConnState.closedConn)
      else c),
    peers := [] }

theorem lookup_setEntry (l : List (String × PeerLink)) (uid : String)
    (v : PeerLink) : lookupEntry (setEntry l uid v) uid = some v := by
  induction l with
  | nil => simp [setEntry, lookupEntry]
  | cons e rest ih =>
    by_cases he : (e.1 == uid) = true
    · simp [setEntry, he, lookupEntry]
    · simp [setEntry, he, lookupEntry, ih]

theorem countKey_setEntry_of_some (l : List (String × PeerLink))
    (uid : String) (v p : PeerLink)
    (h : lookupEntry l uid = some p) :
    countKey (setEntry l uid v) uid = countKey l uid := by
  induction l with
  | nil => simp [lookupEntry] at h
  | cons e rest ih =>
    by_cases he : (e.1 == uid) = true
    · simp [setEntry, he, countKey, List.filter_cons]
    · simp only [lookupEntry, he, Bool.false_eq_true, if_false] at h
      have hrec := ih h
      simp only [countKey] at hrec ⊢
      simp [setEntry, he, List.filter_cons, hrec]

theorem connStateOf_append_of_some (l l₂ : List (Nat × ConnState))
    (c : Nat) (s : ConnState) (h : connStateOf l c = some s) :
    connStateOf (l ++ l₂) c = some s := by
  induction l with
  | nil => simp [connStateOf] at h
  | cons e rest ih =>
    by_cases he : (e.1 == c) = true
    · simp only [connStateOf, he, if_true] at h
      simp [connStateOf, he, h]
    · simp only [connStateOf, he, Bool.false_eq_true, if_false] at h
      simp [connStateOf, he, ih h]

theorem connStateOf_append_of_none (l : List (Nat × ConnState))
    (c : Nat) (s : ConnState) (h : connStateOf l c = none) :
    connStateOf (l ++ [(c, s)]) c = some s := by
  induction l with
  | nil => simp [connStateOf]
  | cons e rest ih =>
    by_cases he : (e.1 == c) = true
    · simp [connStateOf, he] at h
    · simp only [connStateOf, he, Bool.false_eq_true, if_false] at h
      simp [connStateOf, he, ih h]

/-- C1 counterexample: a symmetric glare between ids `a` and `b`.
Each side initiates toward the other (`addUser`), then each receives
the other's offer.  On both sides the offer handler finds an existing
link whose connection holds a local offer, `setRemoteDescription`
throws and the try/catch swallows it: both sides keep role initiator,
neither ever sends an answer, and no lexicographic id comparison takes
place — so the sides do not agree on which one is initiator, refuting
the claimed deterministic tie-break. -/
theorem glare_counterexample :
    (lookupEntry (handleSignal (addUser (initRTC "a") ⟨"b", "Bob"⟩)
        SignalKind.offer "b").peers "b").map PeerLink.role
      = some Role.initiator ∧
    (lookupEntry (handleSignal (addUser (initRTC "b") ⟨"a", "Alice"⟩)
        SignalKind.offer "a").peers "a").map PeerLink.role
      = some Role.initiator ∧
    (handleSignal (addUser (initRTC "a") ⟨"b", "Bob"⟩)
        SignalKind.offer "b").outbox = [("b", SignalKind.offer)] ∧
    ¬ (((lookupEntry (handleSignal (addUser (initRTC "a") ⟨"b", "Bob"⟩)
          SignalKind.offer "b").peers "b").map PeerLink.role
            = some Role.initiator ∧
        (lookupEntry (handleSignal (addUser (initRTC "b") ⟨"a", "Alice"⟩)
          SignalKind.offer "a").peers "a").map PeerLink.role
            = some Role.answerer) ∨
       ((lookupEntry (handleSignal (addUser (initRTC "a") ⟨"b", "Bob"⟩)
          SignalKind.offer "b").peers "b").map PeerLink.role
            = some Role.answerer ∧
        (lookupEntry (handleSignal (addUser (initRTC "b") ⟨"a", "Alice"⟩)
          SignalKind.offer "a").peers "a").map PeerLink.role
            = some Role.initiator)) := by
  decide

/-- C1 amended: when an offer arrives from an id that already has a
PeerLink whose connection holds an outstanding local offer (glare),
`handleSignal` leaves the state completely unchanged: the existing
link is kept with its creation-time role, no answer is sent, and no
tie-break of any kind is applied; in particular the map still holds
the single existing link for that id. -/
theorem glare_keeps_existing_link (st : RTCState) (fromId : String)
    (p : PeerLink) (hp : lookupEntry st.peers fromId = some p)
    (hs : connStateOf st.conns p.connId
      = some ConnState.haveLocalOffer) :
    handleSignal st SignalKind.offer fromId = st := by
  simp [handleSignal, hp, hs]

/-- Witness for C1's amended statement: the glare state reached after
initiating toward `b`. -/
theorem glare_keeps_existing_link_witness :
    handleSignal (addUser (initRTC "a") ⟨"b", "Bob"⟩)
      SignalKind.offer "b" = addUser (initRTC "a") ⟨"b", "Bob"⟩ :=
  glare_keeps_existing_link (addUser (initRTC "a") ⟨"b", "Bob"⟩) "b"
    ⟨0, Role.initiator⟩ (by decide) (by decide)

/-- C8: Stale envelope safety.  An `answer` or `ice-candidate`
envelope from an id with no PeerLink leaves the hook state (peer map,
connections, outbox) completely unchanged; the `if (peer)` guard plus
the surrounding try/catch mean nothing is executed and nothing is
thrown. -/
theorem stale_envelope_safe (st : RTCState) (fromId : String)
    (h : lookupEntry st.peers fromId = none) :
    handleSignal st SignalKind.answer fromId = st ∧
      handleSignal st SignalKind.iceCandidate fromId = st := by
  constructor <;> simp [handleSignal, h]

/-- Witness for C8 on the empty peer map. -/
theorem stale_envelope_safe_witness :
    handleSignal (initRTC "a") SignalKind.answer "b" = initRTC "a" ∧
      handleSignal (initRTC "a") SignalKind.iceCandidate "b"
        = initRTC "a" :=
  stale_envelope_safe (initRTC "a") "b" (by decide)

/-- C10: a `user-joined` event for a remote id that already has a peer
map entry makes `addUser` call `createOffer` unconditionally: a fresh
connection is allocated and overwrites the map entry, a new offer is
sent, the previously stored connection keeps whatever signaling state
it had (it is not closed), and only the one-entry-per-id shape of the
map is preserved. -/
theorem rejoin_overwrites_peer (st : RTCState) (d : JoinData)
    (p : PeerLink) (s : ConnState)
    (hne : d.userId ≠ st.selfId)
    (hp : lookupEntry st.peers d.userId = some p)
    (hlt : p.connId < st.nextConn)
    (hs : connStateOf st.conns p.connId = some s)
    (hfresh : connStateOf st.conns st.nextConn = none) :
    lookupEntry (addUser st d).peers d.userId
        = some ⟨st.nextConn, Role.initiator⟩ ∧
      st.nextConn ≠ p.connId ∧
      connStateOf (addUser st d).conns p.connId = some s ∧
      connStateOf (addUser st d).conns st.nextConn
        = some ConnState.haveLocalOffer ∧
      (addUser st d).outbox
        = st.outbox ++ [(d.userId, SignalKind.offer)] ∧
      countKey (addUser st d).peers d.userId
        = countKey st.peers d.userId := by
  rw [addUser, if_pos hne]
  refine ⟨?_, ?_, ?_, ?_, ?_, ?_⟩
  · exact lookup_setEntry st.peers d.userId _
  · omega
  · exact connStateOf_append_of_some st.conns _ p.connId s hs
  · exact connStateOf_append_of_none st.conns st.nextConn _ hfresh
  · rfl
  · exact countKey_setEntry_of_some st.peers d.userId _ p hp

/-- Witness for C10: a second `joined` for `b` after one initiation
toward `b`. -/
theorem rejoin_overwrites_peer_witness :
    lookupEntry (addUser (addUser (initRTC "a") ⟨"b", "Bob"⟩)
        ⟨"b", "Bob"⟩).peers "b" = some ⟨1, Role.initiator⟩ ∧
      (1 : Nat) ≠ 0 ∧
      connStateOf (addUser (addUser (initRTC "a") ⟨"b", "Bob"⟩)
        ⟨"b", "Bob"⟩).conns 0 = some ConnState.haveLocalOffer ∧
      connStateOf (addUser (addUser (initRTC "a") ⟨"b", "Bob"⟩)
        ⟨"b", "Bob"⟩).conns 1 = some ConnState.haveLocalOffer ∧
      (addUser (addUser (initRTC "a") ⟨"b", "Bob"⟩)
        ⟨"b", "Bob"⟩).outbox
        = (addUser (initRTC "a") ⟨"b", "Bob"⟩).outbox
            ++ [("b", SignalKind.offer)] ∧
      countKey (addUser (addUser (initRTC "a") ⟨"b", "Bob"⟩)
          ⟨"b", "Bob"⟩).peers "b"
        = countKey (addUser (initRTC "a") ⟨"b", "Bob"⟩).peers "b" :=
  rejoin_overwrites_peer
    (addUser (initRTC "a") ⟨"b", "Bob"⟩) ⟨"b", "Bob"⟩
    ⟨0, Role.initiator⟩ ConnState.haveLocalOffer (by decide) (by decide)
    (by decide) (by decide) (by decide)

/-- Observable resources touched by `cleanup` of `VoiceChat.tsx`:
whether a capture stream exists, whether its tracks have been stopped,
whether the audio context is open, the number of pending speaking
timeouts, and whether the session is still joined/connected on the
signaling side. -/
structure CleanState where
  hasStream : Bool
  tracksStopped : Bool
  ctxOpen : Bool
  pendingTimeouts : Nat
  inRoom : Bool
  connected : Bool
deriving Repr, DecidableEq

/-- Which of the platform calls inside `cleanup` throw in a given run
(`track.stop()` / `audioContext.close()` are the external calls that
can throw). -/
structure ThrowOracle where
  stopThrows : Bool
  closeThrows : Bool
deriving Repr, DecidableEq

/-- `cleanup` of `VoiceChat.tsx` (lines 303-325): stop the capture
tracks, close the audio context, clear the speaking timeouts, then
`socketService.leaveRoom` and `socketService.disconnect`, as plain
sequential statements with no try/finally; a throwing step therefore
aborts all later steps.  The boolean result records whether the run
threw. -/
def cleanup (o : ThrowOracle) (st : CleanState) : CleanState × Bool :=
  if st.hasStream && o.stopThrows then (st, true)
  else
    let st1 :=
      if st.hasStream then { st with tracksStopped := true } else st
    if st1.ctxOpen && o.closeThrows then (st1, true)
    else
      let st2 := if st1.ctxOpen then { st1 with ctxOpen := false }
        else st1
      let st3 := { st2 with pendingTimeouts := 0 }
      let st4 := { st3 with inRoom := false }
      ({ st4 with connected := false }, false)

/-- C6 counterexample: with an active stream whose `track.stop()`
throws, `cleanup` aborts at the first step: the audio context stays
open, the pending timeouts survive, and neither `leaveRoom` nor
`disconnect` runs — so the claim that each teardown step runs even if
an earlier step throws is false (there is no try/finally in the
source), and the claimed order (peer links, then capture, then
signaling) is not what the code does either. -/
theorem cleanup_counterexample :
    (cleanup ⟨true, false⟩ ⟨true, false, true, 2, true, true⟩).1
        = ⟨true, false, true, 2, true, true⟩ ∧
      (cleanup ⟨true, false⟩ ⟨true, false, true, 2, true, true⟩).2
        = true := by
  decide

/-- C6 amended: `cleanup` releases the capture handle first, then
closes the audio context, clears the timeouts, leaves the room and
disconnects signaling, in that order but with plain sequencing: when
no step throws, the run completes with everything released, and the
separate WebRTC effect cleanup closes every peer connection and
empties the peer map; when an early step throws, the later steps do
not run. -/
theorem cleanup_completes_when_no_throw (o : ThrowOracle)
    (st : CleanState) (rtc : RTCState)
    (h1 : o.stopThrows = false) (h2 : o.closeThrows = false) :
    (cleanup o st).2 = false ∧
      (cleanup o st).1.ctxOpen = false ∧
      (cleanup o st).1.pendingTimeouts = 0 ∧
      (cleanup o st).1.inRoom = false ∧
      (cleanup o st).1.connected = false ∧
      (st.hasStream = true → (cleanup o st).1.tracksStopped = true) ∧
      (webrtcCleanup rtc).peers = [] := by
  obtain ⟨hs, ts, co, pt, ir, cn⟩ := st
  cases hs <;> cases co <;> simp [cleanup, h1, h2, webrtcCleanup]

/-- Witness for C6's amended statement on a fully live session. -/
theorem cleanup_completes_witness :
    (cleanup ⟨false, false⟩ ⟨true, false, true, 3, true, true⟩).2
        = false ∧
      (cleanup ⟨false, false⟩
        ⟨true, false, true, 3, true, true⟩).1.ctxOpen = false ∧
      (cleanup ⟨false, false⟩
        ⟨true, false, true, 3, true, true⟩).1.pendingTimeouts = 0 ∧
      (cleanup ⟨false, false⟩
        ⟨true, false, true, 3, true, true⟩).1.inRoom = false ∧
      (cleanup ⟨false, false⟩
        ⟨true, false, true, 3, true, true⟩).1.connected = false ∧
      ((⟨true, false, true, 3, true, true⟩ :
          CleanState).hasStream = true →
        (cleanup ⟨false, false⟩
          ⟨true, false, true, 3, true, true⟩).1.tracksStopped
          = true) ∧
      (webrtcCleanup (addUser (initRTC "a") ⟨"b", "Bob"⟩)).peers
        = [] :=
  cleanup_completes_when_no_throw ⟨false, false⟩
    ⟨true, false, true, 3, true, true⟩
    (addUser (initRTC "a") ⟨"b", "Bob"⟩) (by decide) (by decide)

/-- A broadcast handed to `channel.send` by the Supabase
`SocketService` variant: the event name and, for `signal` envelopes,
the target user id. -/
structure OutMsg where
  event : String
  targetUserId : Option String
deriving Repr, DecidableEq

/-- Send-relevant state of the Supabase `SocketService` variant:
whether `this.channel` is non-null, plus the log of messages handed to
`channel.send`.  The class keeps no queue of unsent messages and
registers no reconnect callback, so there is no field in which an
unsent message could be retained for a retry. -/
structure SockState where
  hasChannel : Bool
  sent : List OutMsg
deriving Repr, DecidableEq

/-- `sendSignal` of the Supabase `SocketService` (lines 197-211 of the
variant): the whole body is `if (this.channel) { this.channel.send(...) }`,
so with a null channel the call returns without recording the message
anywhere. -/
def sendSignal (st : SockState) (targetUserId : String) : SockState :=
  if st.hasChannel then
    { st with sent := st.sent ++ [⟨"signal", some targetUserId⟩] }
  else st

/-- `sendMuteStatus` of the Supabase `SocketService` (lines 213-229):
same guard, same silent drop when the channel is null. -/
def sendMuteStatus (st : SockState) : SockState :=
  if st.hasChannel then
    { st with sent := st.sent ++ [⟨"user-mute-status", none⟩] }
  else st

/-- C7 counterexample: a send requested while the channel is null
leaves the service state bit-for-bit unchanged — the message is
neither sent nor recorded in any field, so no later retry can deliver
it; the claim that disconnected sends are queued and retried rather
than silently dropped is false. -/
theorem send_queue_counterexample :
    sendSignal ⟨false, []⟩ "b" = ⟨false, []⟩ ∧
      sendMuteStatus ⟨false, []⟩ = ⟨false, []⟩ := by
  decide

/-- C7 amended: when the channel is null, `sendSignal` and
`sendMuteStatus` silently drop the request (the state is unchanged,
nothing is queued); when the channel exists, the message is handed to
`channel.send` immediately. -/
theorem send_drop_or_deliver (st : SockState) (t : String) :
    (st.hasChannel = false →
      sendSignal st t = st ∧ sendMuteStatus st = st) ∧
    (st.hasChannel = true →
      (sendSignal st t).sent = st.sent ++ [⟨"signal", some t⟩]) := by
  constructor
  · intro h
    constructor <;> simp [sendSignal, sendMuteStatus, h]
  · intro h
    simp [sendSignal, h]

/-- Witness for C7's amended statement, covering the disconnected
case. -/
theorem send_drop_or_deliver_witness :
    (sendSignal ⟨false, []⟩ "b" = ⟨false, []⟩ ∧
      sendMuteStatus ⟨false, []⟩ = ⟨false, []⟩) ∧
    (sendSignal ⟨true, []⟩ "b").sent = [⟨"signal", some "b"⟩] :=
  ⟨(send_drop_or_deliver ⟨false, []⟩ "b").1 rfl,
    (send_drop_or_deliver ⟨true, []⟩ "b").2 rfl⟩

/-- `createRoom` of `RoomManager.tsx` (lines 34-48), character level:
the room id is `uuidv4().slice(0, 8).toUpperCase()` — the first eight
characters of the freshly generated UUID, uppercased.  Strings are
modelled as lists of characters here so that character-level facts
can be stated. -/
def createRoomId (uuid : List Char) : List Char :=
  (uuid.take 8).map Char.toUpper

/-- `joinRoom` of `RoomManager.tsx` (line 62) normalizes the typed id
as `roomId.trim().toUpperCase()` before joining. -/
def normalizeJoinId (input : List Char) : List Char :=
  (((input.dropWhile Char.isWhitespace).reverse.dropWhile
      Char.isWhitespace).reverse).map Char.toUpper

/-- The Supabase channel a room id maps to:
`supabase.channel(room:id)` in `setupChannel`; two sessions exchange
messages iff they subscribe to the same channel name. -/
def channelName (roomId : List Char) : List Char :=
  'r' :: 'o' :: 'o' :: 'm' :: ':' :: roomId

/-- The sixteen characters a lowercase UUID body is drawn from
(digits then the letters a-f, which is what `Nat.digitChar` yields on
0..15). -/
def lowerHexChars : List Char :=
  (List.range 16).map Nat.digitChar

/-- Uppercase hexadecimal alphabet. -/
def upperHexChars : List Char :=
  (List.range 16).map (fun n => (Nat.digitChar n).toUpper)

/-- C9 counterexample: for the perfectly ordinary version-4 UUID
string below, `createRoomId` yields the eight characters `F47AC10B`,
which contain non-digit letters — the room identifier is a hex string,
not a digit-only numeric code, so the claimed format is false (its
fixed length of eight does hold). -/
theorem room_id_not_digits :
    (createRoomId
        "f47ac10b-58cc-4372-a567-0e02b2c3d479".toList).all
        Char.isDigit = false ∧
      (createRoomId
        "f47ac10b-58cc-4372-a567-0e02b2c3d479".toList).length = 8 := by
  decide

theorem toUpper_mem_upperHex (c : Char) (h : lowerHexChars.contains c = true) :
    upperHexChars.contains c.toUpper = true := by
  have hall : lowerHexChars.all
      (fun x => upperHexChars.contains x.toUpper) = true := by decide
  have hm : c ∈ lowerHexChars := by
    simpa using h
  exact List.all_eq_true.mp hall c hm

/-- C9 amended: the room id created at room creation is the first
eight characters of the UUID uppercased — a fixed-length (eight)
string over the uppercase hexadecimal alphabet, not a digit-only
code — and joining requires an exact match: the normalized typed id
reaches the creator's room iff its channel name equals the creator's
channel name, which holds iff the ids are equal. -/
theorem room_id_hex8 (uuid a b : List Char)
    (hlen : 8 ≤ uuid.length)
    (hhex : (uuid.take 8).all (fun c => lowerHexChars.contains c)
      = true) :
    (createRoomId uuid).length = 8 ∧
      (createRoomId uuid).all (fun c => upperHexChars.contains c)
        = true ∧
      (channelName a = channelName b ↔ a = b) := by
  refine ⟨?_, ?_, ?_⟩
  · simp [createRoomId, List.length_take, Nat.min_eq_left hlen]
  · rw [List.all_eq_true] at hhex ⊢
    intro c hc
    obtain ⟨c', hc', rfl⟩ := List.mem_map.mp hc
    exact toUpper_mem_upperHex c' (hhex c' hc')
  · constructor
    · intro h
      simpa [channelName] using h
    · intro h
      rw [h]

/-- Witness for C9's amended statement at a concrete UUID and two
concrete candidate ids. -/
theorem room_id_hex8_witness :
    (createRoomId
        "f47ac10b-58cc-4372-a567-0e02b2c3d479".toList).length = 8 ∧
      (createRoomId
          "f47ac10b-58cc-4372-a567-0e02b2c3d479".toList).all
          (fun c => upperHexChars.contains c) = true ∧
      (channelName "F47AC10B".toList = channelName "F47AC10C".toList
        ↔ "F47AC10B".toList = "F47AC10C".toList) :=
  room_id_hex8 "f47ac10b-58cc-4372-a567-0e02b2c3d479".toList
    "F47AC10B".toList "F47AC10C".toList (by decide) (by decide)

end VoiceVibe
